import Mathlib

/-!
Shallow embedding of the user-interaction-simulation repository
(`parsers/events.py`, `parsers/mixpanel.py`, `navigators/selenium_navigator.py`).

Python JSON-like values are modelled by `Value`; numbers are modelled as
integers (the claims under verification only involve integer data).
Python dictionaries are modelled as association lists with Python dict
semantics: assignment updates an existing key in place, otherwise appends;
lookup of an absent key via `[]` raises `KeyError`, via `.get` yields `None`.
Fallible Python code is modelled in the `Except PyErr` monad.
-/

namespace UIS

/-- A Python/JSON value. -/
inductive Value where
  | vNone
  | vBool (b : Bool)
  | vInt (n : Int)
  | vStr (s : String)
  | vList (xs : List Value)
  | vDict (xs : List (String × Value))

mutual

/-- Structural (Python `==`) equality test on values. -/
def Value.beq : Value → Value → Bool
  | .vNone, .vNone => true
  | .vBool a, .vBool b => a == b
  | .vInt a, .vInt b => a == b
  | .vStr a, .vStr b => a == b
  | .vList a, .vList b => Value.beqList a b
  | .vDict a, .vDict b => Value.beqDict a b
  | _, _ => false

def Value.beqList : List Value → List Value → Bool
  | [], [] => true
  | a :: as, b :: bs => Value.beq a b && Value.beqList as bs
  | _, _ => false

def Value.beqDict : List (String × Value) → List (String × Value) → Bool
  | [], [] => true
  | (k, a) :: as, (l, b) :: bs => k == l && Value.beq a b && Value.beqDict as bs
  | _, _ => false

end

mutual

theorem Value.beq_iff : ∀ (a b : Value), Value.beq a b = true ↔ a = b
  | .vNone, b => by cases b <;> simp [Value.beq]
  | .vBool a, b => by cases b <;> simp [Value.beq]
  | .vInt a, b => by cases b <;> simp [Value.beq]
  | .vStr a, b => by cases b <;> simp [Value.beq]
  | .vList a, b => by
      cases b <;> simp [Value.beq]
      exact Value.beqList_iff a _
  | .vDict a, b => by
      cases b <;> simp [Value.beq]
      exact Value.beqDict_iff a _

theorem Value.beqList_iff : ∀ (a b : List Value), Value.beqList a b = true ↔ a = b
  | [], b => by cases b <;> simp [Value.beqList]
  | a :: as, b => by
      cases b with
      | nil => simp [Value.beqList]
      | cons c cs =>
          simp [Value.beqList, Value.beq_iff a c, Value.beqList_iff as cs]

theorem Value.beqDict_iff : ∀ (a b : List (String × Value)), Value.beqDict a b = true ↔ a = b
  | [], b => by cases b <;> simp [Value.beqDict]
  | (k, a) :: as, b => by
      cases b with
      | nil => simp [Value.beqDict]
      | cons c cs =>
          obtain ⟨l, v⟩ := c
          simp [Value.beqDict, Value.beq_iff a v, Value.beqDict_iff as cs, and_assoc]

end

instance : DecidableEq Value := fun a b => decidable_of_iff _ (Value.beq_iff a b)

/-- Python truthiness (`bool(v)`). -/
def Value.truthy : Value → Bool
  | .vNone => false
  | .vBool b => b
  | .vInt n => n != 0
  | .vStr s => s != ""
  | .vList xs => !xs.isEmpty
  | .vDict xs => !xs.isEmpty

/-- Python exceptions raised by the modelled code. -/
inductive PyErr where
  | keyError (k : String)
  | typeError
  | attributeError
  | indexError
  | valueError (msg : String)
  | notImplementedError (msg : String)
  | stopIteration
deriving DecidableEq

instance {ε α : Type} [DecidableEq ε] [DecidableEq α] : DecidableEq (Except ε α) := fun x y =>
  match x, y with
  | .ok a, .ok b => if h : a = b then .isTrue (by rw [h]) else .isFalse (by simp [h])
  | .error a, .error b => if h : a = b then .isTrue (by rw [h]) else .isFalse (by simp [h])
  | .ok _, .error _ => .isFalse (by simp)
  | .error _, .ok _ => .isFalse (by simp)

/-- A Python `dict` with string keys. -/
abbrev PyDict := List (String × Value)

/-- First binding of a key in an association list (Python dict lookup). -/
def alookup {α : Type} : List (String × α) → String → Option α
  | [], _ => none
  | (k, v) :: d, k' => if k' = k then some v else alookup d k'

/-- Python dict assignment `d[k] = v`: update in place if the key exists,
otherwise append at the end (Python dicts preserve insertion order). -/
def dinsert {α : Type} (d : List (String × α)) (k : String) (v : α) : List (String × α) :=
  if (alookup d k).isSome then
    d.map (fun kv => if kv.1 = k then (k, v) else kv)
  else
    d ++ [(k, v)]

/-- Python `d.pop(k)` (keeping the remaining dict): raises `KeyError` when
the key is absent. -/
def dpop {α : Type} (d : List (String × α)) (k : String) : Except PyErr (List (String × α)) :=
  if (alookup d k).isSome then
    .ok (d.filter (fun kv => ¬ kv.1 = k))
  else
    .error (.keyError k)

/-- Python `d[k]` subscript: raises `KeyError` when the key is absent. -/
def dindex (d : PyDict) (k : String) : Except PyErr Value :=
  match alookup d k with
  | some v => .ok v
  | none => .error (.keyError k)

/-- Python `d.get(k)`: `None` when the key is absent. -/
def dget (d : PyDict) (k : String) : Value :=
  (alookup d k).getD .vNone

/-- Python `d.get(k)` where `k` itself may be `None` (string keys only, so
`d.get(None)` is `None`). -/
def dgetOpt (d : PyDict) : Option String → Value
  | none => .vNone
  | some k => dget d k

/-- Python `container.get(k)` on an arbitrary value: only dicts have a
`.get` attribute; anything else raises `AttributeError`. -/
def Value.pyGet : Value → String → Except PyErr Value
  | .vDict d, k => .ok (dget d k)
  | _, _ => .error .attributeError

/-- Numeric view of a value (Python `bool` is an `int` subclass). -/
def Value.asNum : Value → Option Int
  | .vInt n => some n
  | .vBool b => some (if b then 1 else 0)
  | _ => none

/-- Python `a + b` on the modelled values: integer addition, string or list
concatenation; any other combination raises `TypeError`. -/
def Value.pyAdd (a b : Value) : Except PyErr Value :=
  match a, b with
  | .vStr x, .vStr y => .ok (.vStr (x ++ y))
  | .vList x, .vList y => .ok (.vList (x ++ y))
  | _, _ =>
    match a.asNum, b.asNum with
    | some x, some y => .ok (.vInt (x + y))
    | _, _ => .error .typeError

/-- Python `a - b`: numeric only, otherwise `TypeError`. -/
def Value.pySub (a b : Value) : Except PyErr Value :=
  match a.asNum, b.asNum with
  | some x, some y => .ok (.vInt (x - y))
  | _, _ => .error .typeError

/-- Python `a < 0`: numeric only, otherwise `TypeError`. -/
def Value.pyLtZero (a : Value) : Except PyErr Bool :=
  match a.asNum with
  | some x => .ok (decide (x < 0))
  | none => .error .typeError

/-- Python `xs[i]` sequence subscript for the modelled values. -/
def Value.pyIndex : Value → Nat → Except PyErr Value
  | .vList xs, i => if h : i < xs.length then .ok (xs.get ⟨i, h⟩) else .error .indexError
  | _, _ => .error .typeError

/-- Replace every occurrence of the pattern `pat` by `rep` in a character
list, scanning left to right (the fuel argument makes the recursion
structural; it is instantiated with the length of the scanned list, which
always suffices). -/
def replaceAllSub (pat rep : List Char) : Nat → List Char → List Char
  | 0, cs => cs
  | _, [] => []
  | fuel + 1, c :: cs =>
    if pat ≠ [] ∧ pat.isPrefixOf (c :: cs) then
      rep ++ replaceAllSub pat rep fuel ((c :: cs).drop pat.length)
    else
      c :: replaceAllSub pat rep fuel cs

/-- Python `s.replace(pat, rep)`. -/
def pyReplace (s pat rep : String) : String :=
  String.mk (replaceAllSub pat.toList rep.toList s.toList.length s.toList)

/-- Python `s.replace(pat, "")`. -/
def pyReplaceEmpty (s pat : String) : String :=
  pyReplace s pat ""

/-! ## `parsers/events.py` -/

/-- Truthiness of a `str | None` Python value (`Schema` attributes). -/
def truthyOptStr : Option String → Bool
  | none => false
  | some s => s != ""

/-- `Schema.__init__` argument record (`parsers/events.py`, lines 26-53):
seven optional provider-key slots, stored as instance attributes in this
order. -/
structure Schema where
  reproductive_data_key : Option String
  dimension_key : Option String
  scroll_top_key : Option String
  mouse_position_key : Option String
  time_key : Option String
  page_key : Option String
  query_key : Option String
deriving DecidableEq

/-- `self.__dict__.items()` of a `Schema` instance: attributes in
assignment order. -/
def Schema.attrItems (s : Schema) : List (String × Option String) :=
  [("reproductive_data_key", s.reproductive_data_key),
   ("dimension_key", s.dimension_key),
   ("scroll_top_key", s.scroll_top_key),
   ("mouse_position_key", s.mouse_position_key),
   ("time_key", s.time_key),
   ("page_key", s.page_key),
   ("query_key", s.query_key)]

/-- `Schema.__init__`: stores the seven slots and raises
`ValueError('All arguments cannot be None')` when
`all(not value for value in self.__dict__.values())`, i.e. when every slot
is `None` or an empty (falsy) string. -/
def Schema.init (reproductive_data_key dimension_key scroll_top_key mouse_position_key
    time_key page_key query_key : Option String) : Except PyErr Schema :=
  let s : Schema := ⟨reproductive_data_key, dimension_key, scroll_top_key,
    mouse_position_key, time_key, page_key, query_key⟩
  if (s.attrItems.map Prod.snd).all (fun v => !truthyOptStr v) then
    .error (.valueError "All arguments cannot be None")
  else
    .ok s

/-- `Schema.return_schema` (`parsers/events.py`, lines 55-66): the dict of
non-`None` attributes, from which `'reproductive_data_key'` is popped.
`dict.pop` without a default raises `KeyError` when that key is absent,
i.e. when `reproductive_data_key` was not configured. -/
def Schema.return_schema (s : Schema) : Except PyErr (List (String × String)) :=
  let schema := s.attrItems.filterMap (fun kv => kv.2.map (fun v => (kv.1, v)))
  dpop schema "reproductive_data_key"

/-- A raw provider record: an event name under `'event'` and a properties
dict under `'properties'` (the shape the parser reads from every record). -/
structure RawRecord where
  name : Value
  properties : PyDict
deriving DecidableEq

/-- The generic field loop of the non-nested branch
(`parsers/events.py`, lines 184-185):
`parsed_event[key.replace('_key', '')] = properties.get(value)`. -/
def assignFromDict (properties : PyDict) : List (String × String) → PyDict → PyDict
  | [], d => d
  | kv :: sch, d =>
    assignFromDict properties sch (dinsert d (pyReplaceEmpty kv.1 "_key") (dget properties kv.2))

/-- The generic field loop of the nested branch
(`parsers/events.py`, lines 167-168):
`parsed_event[key.replace('_key', '')] = reproductive.get(value)`, where
`reproductive` is an arbitrary value, so `.get` can raise
`AttributeError`. -/
def assignFromValue (container : Value) : List (String × String) → PyDict → Except PyErr PyDict
  | [], d => .ok d
  | kv :: sch, d => do
    let v ← container.pyGet kv.2
    assignFromValue container sch (dinsert d (pyReplaceEmpty kv.1 "_key") v)

/-- The body of `Events.__mixpanel_inital_parser`
(`parsers/events.py`, lines 159-199) for one record. -/
def Events.parseRecord (s : Schema) (record : RawRecord) : Except PyErr PyDict := do
  let properties := record.properties
  let parsed0 : PyDict := [("name", record.name)]
  let sch ← s.return_schema
  let reproductive := dgetOpt properties s.reproductive_data_key
  if reproductive.truthy then do
    let p1 ← assignFromValue reproductive sch parsed0
    let p2 := dinsert p1 "time" (dgetOpt properties (alookup sch "time_key"))
    let p3 := dinsert p2 "page" (dgetOpt properties (alookup sch "page_key"))
    let qk := alookup sch "query_key"
    let p4 ← if truthyOptStr qk && (dgetOpt properties qk).truthy then do
        let pg ← dindex p3 "page"
        let cat ← pg.pyAdd (dgetOpt properties qk)
        pure (dinsert p3 "page" cat)
      else
        pure p3
    -- In the source the dict is stored in `parsed_events` and the `'query'`
    -- key is popped afterwards; the stored dict is the same mutable object,
    -- so the entry the stream ends up holding is the popped dict.
    dpop p4 "query"
  else do
    let p1 := assignFromDict properties sch parsed0
    let p2 := dinsert p1 "time" (dgetOpt properties (alookup sch "time_key"))
    let p3 := dinsert p2 "page" (dgetOpt properties (alookup sch "page_key"))
    let qk := alookup sch "query_key"
    let p4 ← if truthyOptStr qk then do
        let pg ← dindex p3 "page"
        let cat ← pg.pyAdd (dgetOpt properties qk)
        pure (dinsert p3 "page" cat)
      else
        pure p3
    dpop p4 "query"

/-- The record loop of `Events.__mixpanel_inital_parser`: `valid_event`
is incremented before each store, so record `i` (0-based) is stored under
key `i + 1`. -/
def Events.parseLoop (s : Schema) : List RawRecord → Nat → List (Nat × PyDict) →
    Except PyErr (List (Nat × PyDict))
  | [], _, acc => .ok acc
  | r :: rs, valid_event, acc => do
    let ev ← Events.parseRecord s r
    Events.parseLoop s rs (valid_event + 1) (acc ++ [(valid_event + 1, ev)])

/-- `Events.__mixpanel_inital_parser` (`parsers/events.py`, lines 149-201):
normalize a record sequence into the `parsed_events` mapping. -/
def Events.mixpanelInitalParser (s : Schema) (events : List RawRecord) :
    Except PyErr (List (Nat × PyDict)) :=
  Events.parseLoop s events 0 []

/-! ## `parsers/mixpanel.py` (`MixpanelParser.DataParams`) -/

/-- JSON string escaping as performed by `json.dumps` for the characters
relevant here (control characters other than `\n`, `\t`, `\r` are not
modelled; none of the verified inputs contain them). -/
def jsonEscapeChar (c : Char) : String :=
  if c = '"' then "\\\""
  else if c = '\\' then "\\\\"
  else if c = '\n' then "\\n"
  else if c = '\t' then "\\t"
  else if c = '\r' then "\\r"
  else String.mk [c]

def jsonEscape (s : String) : String :=
  String.join (s.toList.map jsonEscapeChar)

mutual

/-- `json.dumps(v, ensure_ascii=False)` with the default separators
`', '` and `': '`. -/
def jsonDumps : Value → String
  | .vNone => "null"
  | .vBool b => cond b "true" "false"
  | .vInt n => toString n
  | .vStr s => "\"" ++ jsonEscape s ++ "\""
  | .vList xs => "[" ++ jsonDumpsList xs ++ "]"
  | .vDict xs => "\x7b" ++ jsonDumpsDict xs ++ "\x7d"

def jsonDumpsList : List Value → String
  | [] => ""
  | [x] => jsonDumps x
  | x :: y :: xs => jsonDumps x ++ ", " ++ jsonDumpsList (y :: xs)

def jsonDumpsDict : List (String × Value) → String
  | [] => ""
  | [(k, v)] => "\"" ++ jsonEscape k ++ "\": " ++ jsonDumps v
  | (k, v) :: y :: xs => "\"" ++ jsonEscape k ++ "\": " ++ jsonDumps v ++ ", " ++ jsonDumpsDict (y :: xs)

end

/-- Python `str(v)` for the scalar values (the only ones that ever reach
message formatting in the modelled checks: the date-pattern checks raise
`TypeError` on non-string input before any formatting, and the remaining
messages have no placeholder). Containers fall back to their JSON text. -/
def pyStrOf : Value → String
  | .vStr s => s
  | .vInt n => toString n
  | .vBool b => cond b "True" "False"
  | .vNone => "None"
  | v => jsonDumps v

/-- `message.format(user_input=value)`: Python `str.format` replaces the
placeholder by `str(value)` and leaves placeholder-free messages
unchanged. -/
def pyFormatUserInput (template : String) (value : Value) : String :=
  pyReplace template "{user_input}" (pyStrOf value)

/-- The anchored core of
`DATE_REGEX = r'^(?:19|20)\d\d-(?:0[1-9]|1[0-2])-(?:0[1-9]|[12]\d|3[01])$'`
on an exact character list. -/
def dateRegexCore : List Char → Bool
  | [y1, y2, y3, y4, h1, m1, m2, h2, d1, d2] =>
    ((y1 = '1' && y2 = '9') || (y1 = '2' && y2 = '0')) &&
    y3.isDigit && y4.isDigit && h1 = '-' && h2 = '-' &&
    ((m1 = '0' && m2.isDigit && m2 ≠ '0') ||
      (m1 = '1' && (m2 = '0' || m2 = '1' || m2 = '2'))) &&
    ((d1 = '0' && d2.isDigit && d2 ≠ '0') ||
      ((d1 = '1' || d1 = '2') && d2.isDigit) ||
      (d1 = '3' && (d2 = '0' || d2 = '1')))
  | _ => false

/-- `re.search(DATE_REGEX, s) is not None`: with `^`/`$` anchors and no
MULTILINE flag this matches the whole string, where `$` also matches just
before one trailing newline. -/
def matchesDateRegex (s : String) : Bool :=
  dateRegexCore s.toList ||
    (s.toList.getLast? = some '\n' && dateRegexCore s.toList.dropLast)

/-- `re.search(DATE_REGEX, value)`: raises `TypeError` unless the value is
a string. -/
def reSearchDate : Value → Except PyErr Bool
  | .vStr s => .ok (matchesDateRegex s)
  | _ => .error .typeError

/-- `isinstance(v, int)` (Python `bool` is a subclass of `int`). -/
def isInstInt : Value → Bool
  | .vInt _ => true
  | .vBool _ => true
  | _ => false

/-- `isinstance(v, list)`. -/
def isInstList : Value → Bool
  | .vList _ => true
  | _ => false

namespace DataParams

def SUPPORTED_PARAMS : List String :=
  ["from_date", "to_date", "limit", "event", "where"]

/-- `str(self.SUPPORTED_PARAMS)`: Python tuple repr. -/
def supportedParamsRepr : String :=
  "(\x27from_date\x27, \x27to_date\x27, \x27limit\x27, \x27event\x27, \x27where\x27)"

def msgFromDatePattern : String :=
  "from_date param should be in the following pattern: YYYY-MM-DD | You provided {user_input}"

def msgFromDatePair : String := "from_date param have to be with to_date param"

def msgToDatePattern : String :=
  "to_date param should be in the following pattern: YYYY-MM-DD | You provided {user_input}"

def msgToDatePair : String := "to_date param have to be with from_date param"

def msgLimit : String := "limit param should be integer"

def msgEvent : String := "event param should be list"

/-- The `PARAMS_CHECKS[key]['functions']` pipeline of
`MixpanelParser.DataParams.__init__` (`parsers/mixpanel.py`, lines 56-108)
for one supported key: run each check in order, raising
`ValueError(error.format(user_input=value))` when a check does not return
`True`, and produce the `custom_result` replacement value if one is
defined. -/
def runChecks (kwargs : PyDict) (key : String) (value : Value) : Except PyErr (Option Value) :=
  if key = "from_date" then do
    let m ← reSearchDate value
    if m then
      if (dget kwargs "to_date").truthy then
        pure none
      else
        .error (.valueError (pyFormatUserInput msgFromDatePair value))
    else
      .error (.valueError (pyFormatUserInput msgFromDatePattern value))
  else if key = "to_date" then do
    let m ← reSearchDate value
    if m then
      if (dget kwargs "from_date").truthy then
        pure none
      else
        .error (.valueError (pyFormatUserInput msgToDatePair value))
    else
      .error (.valueError (pyFormatUserInput msgToDatePattern value))
  else if key = "limit" then
    if isInstInt value then
      pure none
    else
      .error (.valueError (pyFormatUserInput msgLimit value))
  else if key = "event" then
    if isInstList value then
      pure (some (.vStr (jsonDumps value)))
    else
      .error (.valueError (pyFormatUserInput msgEvent value))
  else
    -- 'where' has an empty check tuple
    pure none

/-- `MixpanelParser.DataParams.__init__` (`parsers/mixpanel.py`,
lines 33-110): iterate the keyword arguments in order; an unsupported name
raises `NotImplementedError`; each supported name runs its checks, and a
`custom_result` overwrites the stored value. Returns `self.params`. -/
def init (kwargs : PyDict) : Except PyErr PyDict :=
  kwargs.foldlM (fun acc kv => do
    if kv.1 ∈ SUPPORTED_PARAMS then do
      let r ← runChecks acc kv.1 kv.2
      pure (match r with
        | some v2 => dinsert acc kv.1 v2
        | none => acc)
    else
      .error (.notImplementedError ("\"" ++ kv.1 ++
        "\" is not supported param. Supported params are " ++ supportedParamsRepr)))
    kwargs

end DataParams

/-! ## `navigators/selenium_navigator.py` -/

/-- Observable outcome of one iteration of the replay loop: the suspend
duration passed to `sleep`, the page passed to `driver.get` (when the
default handler navigated), whether a custom `execute_function` was
invoked, the scroll dispatch (pixels, and whether the browser call
succeeded), and the click coordinates. -/
structure SimStep where
  sleepFor : Value
  navigated : Option Value
  handled : Bool
  scrolled : Option (Value × Bool)
  clicked : Option (Value × Value)
deriving DecidableEq

/-- `Controls.simulate_scroll` (`navigators/selenium_navigator.py`,
lines 37-50): the `JavascriptException` from the browser layer (modelled
by the `jsFails` flag) is caught and swallowed with a diagnostic print,
so the call always returns. -/
def Controls.simulate_scroll (jsFails : Bool) (pixels : Value) : Value × Bool :=
  (pixels, !jsFails)

/-- A custom `execute_function`: receives `n`, `event`, `last_location`
and `last_timestamp` (the `events` and `driver` keyword arguments are
ambient context not observable in this model) and may raise. -/
abbrev ExecuteFunction := Nat → PyDict → Value → Value → Except PyErr Unit

/-- Lines 99-107 of `perform_simulation`: the suspend duration — the
recorded delta `event['time'] - last_timestamp` with negative values
replaced by `3`, or the static value. -/
def sleepComputation (static_sleep_time : Option Value) (event : PyDict)
    (last_timestamp : Value) : Except PyErr Value :=
  match static_sleep_time with
  | none => do
      let t ← dindex event "time"
      let nei ← t.pySub last_timestamp
      let isNeg ← nei.pyLtZero
      pure (if isNeg then Value.vInt 3 else nei)
  | some s => pure s

/-- Lines 109-120 of `perform_simulation`: invoke the custom
`execute_function` when supplied, else the default handler, which calls
`driver.get(event['page'])` iff `last_location != event['page']`. Returns
(page navigated to, whether the custom handler ran). -/
def handlerStage (execute_function : Option ExecuteFunction) (n : Nat) (event : PyDict)
    (last_timestamp last_location : Value) : Except PyErr (Option Value × Bool) :=
  match execute_function with
  | some f => do
      f n event last_location last_timestamp
      pure (none, true)
  | none => do
      let page ← dindex event "page"
      pure (if last_location = page then (none : Option Value) else some page, false)

/-- Lines 128-133 of `perform_simulation`: click dispatch when
`event.get('mouse_position')` is truthy, reading coordinates by
subscript. -/
def clickStage (event : PyDict) : Except PyErr (Option (Value × Value)) :=
  if (dget event "mouse_position").truthy then do
    let mp := dget event "mouse_position"
    let x ← mp.pyIndex 0
    let y ← mp.pyIndex 1
    pure (some (x, y))
  else
    pure none

/-- The `for n, event in self.events.items()` loop of
`UserSimulation.perform_simulation` (`navigators/selenium_navigator.py`,
lines 98-136). `scrollFails` tells, per iteration index, whether the
browser raises `JavascriptException` on that iteration's scroll dispatch. -/
def UserSimulation.simLoop (static_sleep_time : Option Value) (scrollFails : Nat → Bool)
    (execute_function : Option ExecuteFunction) :
    List (Nat × PyDict) → Nat → Value → Value → Except PyErr (List SimStep)
  | [], _, _, _ => .ok []
  | (n, event) :: rest, i, last_timestamp, last_location => do
    let sleepFor ← sleepComputation static_sleep_time event last_timestamp
    let nh ← handlerStage execute_function n event last_timestamp last_location
    let scrolled := if (dget event "scroll_top").truthy then
        some (Controls.simulate_scroll (scrollFails i) (dget event "scroll_top"))
      else none
    let clicked ← clickStage event
    let t2 ← dindex event "time"
    let p2 ← dindex event "page"
    let steps ← UserSimulation.simLoop static_sleep_time scrollFails execute_function rest
      (i + 1) t2 p2
    pure (⟨sleepFor, nh.1, nh.2, scrolled, clicked⟩ :: steps)

/-- A step with its scroll browser-outcome flag discarded (the pixels
argument is kept): used to state that nothing but that flag ever depends
on scroll failures. -/
def SimStep.ignoreScrollOutcome (s : SimStep) : SimStep :=
  { s with scrolled := s.scrolled.map (fun pr => (pr.1, true)) }

/-- `UserSimulation.perform_simulation` (`navigators/selenium_navigator.py`,
lines 86-136). `self.first_event` is `next(iter(self.events.items()))[1]`,
taken in `__init__` (raising `StopIteration` on an empty stream);
`last_timestamp` starts as `self.first_event['time']` and `last_location`
starts as `None`. -/
def UserSimulation.perform_simulation (events : List (Nat × PyDict))
    (static_sleep_time : Option Value) (scrollFails : Nat → Bool)
    (execute_function : Option ExecuteFunction) : Except PyErr (List SimStep) := do
  let first_event ← (match events with
    | [] => .error .stopIteration
    | e :: _ => .ok e.2)
  let last_timestamp ← dindex first_event "time"
  UserSimulation.simLoop static_sleep_time scrollFails execute_function events 0
    last_timestamp .vNone

/-! ## Spec-side definitions (for comparison with the embedded code) -/

/-- Modelled from the spec: the default-handler navigation decisions,
threading the previous page through the stream. The first previous page is
the absent value; an event triggers a navigation to its page exactly when
its page differs from the previous page. -/
def navDecisionSpec (prev : Value) : List Value → List (Option Value)
  | [] => []
  | p :: ps => (if prev = p then none else some p) :: navDecisionSpec p ps

/-- Modelled from the spec: recorded-timing delays. The delay before an
event is its timestamp minus the previous one, except that a negative
difference is replaced by exactly 3 seconds; the timestamp threaded for
the first event is the first event's own time. -/
def sleepSpec (lastT : Int) : List Int → List Value
  | [] => []
  | t :: ts => (if t - lastT < 0 then Value.vInt 3 else Value.vInt (t - lastT)) :: sleepSpec t ts

/-- The pages of an event stream, when every event carries one. -/
def pagesOf : List (Nat × PyDict) → Option (List Value)
  | [] => some []
  | e :: es => (alookup e.2 "page").bind (fun p => (pagesOf es).map (fun ps => p :: ps))

/-- The timestamps of an event stream, when every event carries one. -/
def timesOf : List (Nat × PyDict) → Option (List Value)
  | [] => some []
  | e :: es => (alookup e.2 "time").bind (fun t => (timesOf es).map (fun ts => t :: ts))

/-- Contiguous-substring test on character lists. -/
def listContainsSub (needle : List Char) : List Char → Bool
  | [] => needle.isEmpty
  | c :: cs => needle.isPrefixOf (c :: cs) || listContainsSub needle cs

/-- Does `hay` contain `needle` as a contiguous substring? -/
def strContains (hay needle : String) : Bool :=
  listContainsSub needle.toList hay.toList

/-- A three-event canonical stream with recorded timestamps
`[100, 103, 99]` and pages `["A", "A", "B"]`. -/
def sampleStream : List (Nat × PyDict) :=
  [(1, [("time", .vInt 100), ("page", .vStr "A")]),
   (2, [("time", .vInt 103), ("page", .vStr "A")]),
   (3, [("time", .vInt 99), ("page", .vStr "B")])]

/-- The step trace of replaying `sampleStream` with `static_sleep_time = 0`. -/
def sampleStepsStatic : List SimStep :=
  [⟨.vInt 0, some (.vStr "A"), false, none, none⟩,
   ⟨.vInt 0, none, false, none, none⟩,
   ⟨.vInt 0, some (.vStr "B"), false, none, none⟩]

/-- The step trace of replaying `sampleStream` with `static_sleep_time = 2`. -/
def sampleStepsStatic2 : List SimStep :=
  [⟨.vInt 2, some (.vStr "A"), false, none, none⟩,
   ⟨.vInt 2, none, false, none, none⟩,
   ⟨.vInt 2, some (.vStr "B"), false, none, none⟩]

/-- The step trace of replaying `sampleStream` with recorded timing. -/
def sampleStepsRecorded : List SimStep :=
  [⟨.vInt 0, some (.vStr "A"), false, none, none⟩,
   ⟨.vInt 3, none, false, none, none⟩,
   ⟨.vInt 3, some (.vStr "B"), false, none, none⟩]

/-! ## Concrete fixtures shared by witnesses and counterexamples -/

/-- The fully configured schema of the repository's own example usage
(`Schema('reproductive', 'dimension', ...)`), with short provider keys. -/
def schemaFull : Schema :=
  ⟨some "rep", some "dim", some "scr", some "mou", some "tim", some "pag", some "que"⟩

/-- A schema with `reproductive_data_key` configured but no `query_key`. -/
def schemaNoQuery : Schema :=
  ⟨some "rep", some "dim", none, none, some "tim", some "pag", none⟩

/-- A schema configuring the reproductive, time, page and query slots. -/
def schemaQP : Schema :=
  ⟨some "rep", none, none, none, some "tim", some "pag", some "que"⟩

/-- A raw record with every provider key at top level and no nested
container. -/
def sampleRecordFlat : RawRecord :=
  ⟨.vStr "E", [("dim", .vStr "D"), ("scr", .vInt 7), ("mou", .vList [.vInt 1, .vInt 2]),
    ("tim", .vInt 5), ("pag", .vStr "P"), ("que", .vStr "?q")]⟩

/-- The canonical event the parser produces for `sampleRecordFlat` under
`schemaFull`. -/
def sampleParsedFlat : PyDict :=
  [("name", .vStr "E"), ("dimension", .vStr "D"), ("scroll_top", .vInt 7),
   ("mouse_position", .vList [.vInt 1, .vInt 2]), ("time", .vInt 5), ("page", .vStr "P?q")]

/-! ## Dictionary lemmas -/

theorem alookup_map_update {α : Type} (k k' : String) (v : α) :
    ∀ d : List (String × α),
      alookup (d.map (fun kv => if kv.1 = k then (k, v) else kv)) k' =
        if k' = k then (alookup d k).map (fun _ => v) else alookup d k' := by
  intro d
  induction d with
  | nil => by_cases h : k' = k <;> simp [alookup, h]
  | cons kv d ih =>
      obtain ⟨k1, v1⟩ := kv
      simp only [List.map_cons]
      by_cases h1 : k1 = k
      · rw [show ((if (k1, v1).1 = k then (k, v) else (k1, v1)) = (k, v)) from if_pos h1]
        subst h1
        by_cases h2 : k' = k1
        · subst h2
          simp [alookup]
        · simp [alookup, h2, ih]
      · rw [show ((if (k1, v1).1 = k then (k, v) else (k1, v1)) = (k1, v1)) from if_neg h1]
        by_cases h2 : k' = k1
        · subst h2
          simp [alookup, h1]
        · simp [alookup, h1, h2, ih, Ne.symm h1]

theorem alookup_append {α : Type} (k : String) :
    ∀ d1 d2 : List (String × α),
      alookup (d1 ++ d2) k =
        match alookup d1 k with
        | some v => some v
        | none => alookup d2 k := by
  intro d1 d2
  induction d1 with
  | nil => simp [alookup]
  | cons kv d ih =>
      by_cases h : k = kv.1 <;> simp [alookup, h, ih]

theorem alookup_dinsert {α : Type} (d : List (String × α)) (k k' : String) (v : α) :
    alookup (dinsert d k v) k' = if k' = k then some v else alookup d k' := by
  unfold dinsert
  split
  · rename_i hsome
    rw [alookup_map_update]
    by_cases h : k' = k
    · obtain ⟨w, hw⟩ := Option.isSome_iff_exists.mp hsome
      simp [h, hw]
    · simp [h]
  · rename_i hnone
    rw [alookup_append]
    have hn : alookup d k = none := by
      cases ho : alookup d k
      · rfl
      · simp [ho] at hnone
    by_cases h : k' = k
    · subst h
      simp [hn, alookup]
    · cases ho : alookup d k' <;> simp [ho, alookup, h]

theorem alookup_none_of_all_ne {α : Type} (d : List (String × α)) (k : String)
    (h : ∀ kv ∈ d, kv.1 ≠ k) : alookup d k = none := by
  induction d with
  | nil => rfl
  | cons kv d ih =>
      have h1 := h kv (by simp)
      simp only [alookup, if_neg (Ne.symm h1)]
      exact ih (fun kv2 h2 => h kv2 (by simp [h2]))

theorem assignFromDict_alookup (properties : PyDict) (k : String) :
    ∀ (sch : List (String × String)) (d : PyDict),
      (∀ kv ∈ sch, pyReplaceEmpty kv.1 "_key" ≠ k) →
      alookup (assignFromDict properties sch d) k = alookup d k := by
  intro sch
  induction sch with
  | nil => intro d _; rfl
  | cons kv sch ih =>
      intro d h
      have h1 := h kv (by simp)
      rw [assignFromDict, ih _ (fun kv2 h2 => h kv2 (by simp [h2])), alookup_dinsert,
        if_neg (Ne.symm h1)]

theorem assignFromValue_error (container : Value) :
    ∀ (sch : List (String × String)) (d : PyDict) (e : PyErr),
      assignFromValue container sch d = .error e → e = .attributeError := by
  intro sch
  induction sch with
  | nil => intro d e h; simp [assignFromValue] at h
  | cons kv sch ih =>
      intro d e h
      rw [assignFromValue] at h
      cases hg : container.pyGet kv.2 with
      | error e2 =>
          have he2 : e2 = .attributeError := by
            cases container <;> simp [Value.pyGet] at hg <;> exact hg.symm
          rw [hg] at h
          simp only [bind, Except.bind] at h
          cases h
          exact he2
      | ok v =>
          rw [hg] at h
          simp only [bind, Except.bind] at h
          exact ih _ e h

/-- Binding view of the `filterMap` used by `Schema.return_schema`. -/
theorem mem_filterMap_opt (l : List (String × Option String)) (k v : String) :
    (k, v) ∈ l.filterMap (fun kv => kv.2.map (fun w => (kv.1, w))) ↔ (k, some v) ∈ l := by
  induction l with
  | nil => simp
  | cons kv l ih =>
      obtain ⟨k1, o1⟩ := kv
      cases o1 <;> simp [List.filterMap_cons, ih, Prod.ext_iff]

/-! ## C7: Schema construction -/

/-- C7 (amended): `Schema` construction succeeds exactly when at least one
slot argument is truthy (a non-empty string); it fails with
`ValueError('All arguments cannot be None')` when every slot is absent
*or an empty string* — the claim's "fails exactly when every slot is
absent" misses the falsy empty-string arguments. -/
theorem C7_schema_construction (r d st mp t p q : Option String) :
    Schema.init r d st mp t p q =
      if truthyOptStr r || truthyOptStr d || truthyOptStr st || truthyOptStr mp ||
          truthyOptStr t || truthyOptStr p || truthyOptStr q then
        .ok ⟨r, d, st, mp, t, p, q⟩
      else
        .error (.valueError "All arguments cannot be None") := by
  simp only [Schema.init, Schema.attrItems, List.map_cons, List.map_nil, List.all_cons,
    List.all_nil, Bool.and_true]
  cases truthyOptStr r <;> cases truthyOptStr d <;> cases truthyOptStr st <;>
    cases truthyOptStr mp <;> cases truthyOptStr t <;> cases truthyOptStr p <;>
    cases truthyOptStr q <;> simp

/-- C7 counterexample: supplying `dimension_key = ''` sets one slot (the
argument is not absent), yet construction still fails, so construction
does not succeed "for every combination of slot arguments with at least
one slot set". -/
theorem C7_schema_construction_counterexample :
    Schema.init none (some "") none none none none none =
      .error (.valueError "All arguments cannot be None") ∧
    (some "" : Option String).isSome = true := by
  constructor
  · decide
  · decide

/-! ## C4: `Schema.return_schema` (activeFields) -/

/-- C4 (amended): when `reproductive_data_key` *is* configured,
`return_schema` returns, without error, exactly the present slots mapped
to their provider keys, and the result never contains
`reproductive_data_key`. (When `reproductive_data_key` is not configured
the method instead raises `KeyError`, see the counterexample.) -/
theorem C4_return_schema_active_fields (s : Schema)
    (h : s.reproductive_data_key.isSome = true) :
    ∃ l, s.return_schema = .ok l ∧
      (∀ v, ("reproductive_data_key", v) ∉ l) ∧
      (∀ k v, (k, v) ∈ l ↔
        ((k = "dimension_key" ∧ s.dimension_key = some v) ∨
         (k = "scroll_top_key" ∧ s.scroll_top_key = some v) ∨
         (k = "mouse_position_key" ∧ s.mouse_position_key = some v) ∨
         (k = "time_key" ∧ s.time_key = some v) ∨
         (k = "page_key" ∧ s.page_key = some v) ∨
         (k = "query_key" ∧ s.query_key = some v))) := by
  obtain ⟨rv, hrv⟩ := Option.isSome_iff_exists.mp h
  have hlook : alookup (s.attrItems.filterMap (fun kv => kv.2.map (fun w => (kv.1, w))))
      "reproductive_data_key" = some rv := by
    simp [Schema.attrItems, hrv, List.filterMap_cons, alookup]
  refine ⟨(s.attrItems.filterMap (fun kv => kv.2.map (fun w => (kv.1, w)))).filter
      (fun kv => ¬ kv.1 = "reproductive_data_key"), ?_, ?_, ?_⟩
  · rw [Schema.return_schema, dpop, if_pos (by rw [hlook]; rfl)]
  · intro v hv
    simp [List.mem_filter] at hv
  · intro k v
    rw [List.mem_filter]
    simp only [mem_filterMap_opt, decide_eq_true_eq]
    constructor
    · rintro ⟨hmem, hne⟩
      simp only [Schema.attrItems, List.mem_cons, List.mem_singleton, List.not_mem_nil,
        or_false, Prod.mk.injEq] at hmem
      rcases hmem with ⟨hk, hv⟩ | ⟨hk, hv⟩ | ⟨hk, hv⟩ | ⟨hk, hv⟩ | ⟨hk, hv⟩ | ⟨hk, hv⟩ | ⟨hk, hv⟩
      · exact absurd hk hne
      all_goals subst hk
      · exact Or.inl ⟨rfl, hv.symm⟩
      · exact Or.inr (Or.inl ⟨rfl, hv.symm⟩)
      · exact Or.inr (Or.inr (Or.inl ⟨rfl, hv.symm⟩))
      · exact Or.inr (Or.inr (Or.inr (Or.inl ⟨rfl, hv.symm⟩)))
      · exact Or.inr (Or.inr (Or.inr (Or.inr (Or.inl ⟨rfl, hv.symm⟩))))
      · exact Or.inr (Or.inr (Or.inr (Or.inr (Or.inr ⟨rfl, hv.symm⟩))))
    · intro hdisj
      rcases hdisj with ⟨hk, hv⟩ | ⟨hk, hv⟩ | ⟨hk, hv⟩ | ⟨hk, hv⟩ | ⟨hk, hv⟩ | ⟨hk, hv⟩ <;>
        subst hk <;>
        exact ⟨by simp [Schema.attrItems, hv], by decide⟩

/-- C4 witness: a concrete schema with `reproductive_data_key` configured,
at which the amended theorem's hypothesis holds and its conclusion is
obtained by applying the theorem. -/
theorem C4_return_schema_active_fields_witness :
    ((⟨some "r", some "d", none, none, none, none, none⟩ :
        Schema).reproductive_data_key.isSome = true) ∧
    ∃ l, (⟨some "r", some "d", none, none, none, none, none⟩ : Schema).return_schema = .ok l ∧
      (∀ v, ("reproductive_data_key", v) ∉ l) ∧
      (∀ k v, (k, v) ∈ l ↔
        ((k = "dimension_key" ∧ (some "d" : Option String) = some v) ∨
         (k = "scroll_top_key" ∧ (none : Option String) = some v) ∨
         (k = "mouse_position_key" ∧ (none : Option String) = some v) ∨
         (k = "time_key" ∧ (none : Option String) = some v) ∨
         (k = "page_key" ∧ (none : Option String) = some v) ∨
         (k = "query_key" ∧ (none : Option String) = some v))) :=
  ⟨rfl, C4_return_schema_active_fields ⟨some "r", some "d", none, none, none, none, none⟩ rfl⟩

/-- C4 counterexample: for a validly constructed schema whose
`reproductive_data_key` is not configured, `return_schema` raises
`KeyError('reproductive_data_key')` instead of returning the active
mapping, refuting the claim's "returns, without error, … including when
reproductive_data_key itself was not configured". -/
theorem C4_return_schema_counterexample :
    (Schema.init none (some "d") none none none none none =
      .ok ⟨none, some "d", none, none, none, none, none⟩) ∧
    Schema.return_schema ⟨none, some "d", none, none, none, none, none⟩ =
      .error (.keyError "reproductive_data_key") := by
  constructor
  · decide
  · decide

/-! ## Structure of `Schema.return_schema` results -/

theorem return_schema_none (s : Schema) (hr : s.reproductive_data_key = none) :
    s.return_schema = .error (.keyError "reproductive_data_key") := by
  have hnone : alookup (s.attrItems.filterMap (fun kv => kv.2.map (fun w => (kv.1, w))))
      "reproductive_data_key" = none := by
    apply alookup_none_of_all_ne
    rintro ⟨k, v⟩ hkv
    have hmem := (mem_filterMap_opt s.attrItems k v).mp hkv
    simp only [Schema.attrItems, List.mem_cons, List.not_mem_nil, or_false,
      Prod.mk.injEq] at hmem
    rcases hmem with ⟨hk, hv⟩ | ⟨hk, hv⟩ | ⟨hk, hv⟩ | ⟨hk, hv⟩ | ⟨hk, hv⟩ | ⟨hk, hv⟩ | ⟨hk, hv⟩ <;>
      subst hk
    · rw [hr] at hv
      exact Option.noConfusion hv
    all_goals simp
  rw [Schema.return_schema, dpop, if_neg (by rw [hnone]; simp)]

theorem return_schema_ok (s : Schema) (rv : String) (hr : s.reproductive_data_key = some rv) :
    ∃ L, s.return_schema = .ok L ∧
      ∀ kv ∈ L, (kv.1, some kv.2) ∈ s.attrItems ∧ kv.1 ≠ "reproductive_data_key" := by
  have hlook : alookup (s.attrItems.filterMap (fun kv => kv.2.map (fun w => (kv.1, w))))
      "reproductive_data_key" = some rv := by
    simp [Schema.attrItems, hr, List.filterMap_cons, alookup]
  refine ⟨_, by rw [Schema.return_schema, dpop, if_pos (by rw [hlook]; rfl)], ?_⟩
  rintro ⟨k, v⟩ hkv
  rw [List.mem_filter] at hkv
  obtain ⟨hin, hne⟩ := hkv
  refine ⟨(mem_filterMap_opt s.attrItems k v).mp hin, ?_⟩
  simpa using hne

/-- Lookup of a key not written by the nested-branch field loop is
unchanged by it. -/
theorem assignFromValue_alookup (c : Value) (k : String) :
    ∀ (sch : List (String × String)) (d p : PyDict),
      assignFromValue c sch d = .ok p →
      (∀ kv ∈ sch, pyReplaceEmpty kv.1 "_key" ≠ k) →
      alookup p k = alookup d k := by
  intro sch
  induction sch with
  | nil =>
      intro d p h _
      cases h
      rfl
  | cons kv sch ih =>
      intro d p h hne
      rw [assignFromValue] at h
      cases hg : c.pyGet kv.2 with
      | error e =>
          rw [hg] at h
          simp [bind, Except.bind] at h
      | ok v =>
          rw [hg] at h
          simp only [bind, Except.bind] at h
          have h1 := hne kv (by simp)
          rw [ih _ _ h (fun kv2 h2 => hne kv2 (by simp [h2])), alookup_dinsert,
            if_neg (Ne.symm h1)]

/-! ## C1: stream indexing -/

theorem parseLoop_ok (s : Schema) :
    ∀ (rs : List RawRecord) (n : Nat) (acc l : List (Nat × PyDict)),
      Events.parseLoop s rs n acc = .ok l →
      ∃ f : Fin rs.length → PyDict,
        (∀ i, Events.parseRecord s (rs.get i) = .ok (f i)) ∧
        l = acc ++ List.ofFn (fun i : Fin rs.length => (n + 1 + i.1, f i)) := by
  intro rs
  induction rs with
  | nil =>
      intro n acc l h
      rw [Events.parseLoop] at h
      cases h
      exact ⟨Fin.elim0, fun i => i.elim0, by simp⟩
  | cons r rs ih =>
      intro n acc l h
      rw [Events.parseLoop] at h
      cases hev : Events.parseRecord s r with
      | error e =>
          rw [hev] at h
          simp only [bind, Except.bind] at h
          exact Except.noConfusion h
      | ok ev =>
          rw [hev] at h
          simp only [bind, Except.bind] at h
          obtain ⟨f, hf, hl⟩ := ih (n + 1) (acc ++ [(n + 1, ev)]) l h
          refine ⟨fun i => Fin.cases ev (fun j => f j) i, ?_, ?_⟩
          · intro i
            refine Fin.cases ?_ ?_ i
            · simpa using hev
            · intro j
              simpa using hf j
          · have hfn : (fun i : Fin rs.length => (n + 1 + 1 + i.1, f i)) =
                (fun i : Fin rs.length => (n + 1 + i.succ.1, f i)) := by
              funext j
              have harith : n + 1 + 1 + j.1 = n + 1 + (j.1 + 1) := by omega
              simp [Fin.val_succ, harith]
            rw [hl, List.ofFn_succ]
            simp only [Fin.cases_zero, Fin.cases_succ, List.append_assoc,
              List.singleton_append]
            rw [hfn]
            simp

/-- C1 (amended): *whenever normalization completes without error*, it
yields a stream with exactly `N` entries whose keys are the contiguous
integers `1..N` in input order, entry `i` parsed from the `i`-th input
record. (Unconditionally the claim is false: for schemas without
`query_key`, or without `reproductive_data_key`, normalization of a
non-empty record list raises instead of producing a stream — see the
counterexample and C10.) -/
theorem C1_stream_indexing (s : Schema) (rs : List RawRecord) (l : List (Nat × PyDict))
    (h : Events.mixpanelInitalParser s rs = .ok l) :
    l.length = rs.length ∧
    ∀ i (hi : i < rs.length), ∃ ev,
      Events.parseRecord s (rs.get ⟨i, hi⟩) = .ok ev ∧ l.get? i = some (i + 1, ev) := by
  obtain ⟨f, hf, hl⟩ := parseLoop_ok s rs 0 [] l h
  subst hl
  constructor
  · simp
  · intro i hi
    refine ⟨f ⟨i, hi⟩, hf _, ?_⟩
    rw [List.nil_append, List.get?_ofFn]
    simp only [List.ofFnNthVal, hi, dif_pos]
    have : 0 + 1 + i = i + 1 := by omega
    rw [this]

/-- C1 witness: a concrete successful normalization of one record, with
the amended theorem's conclusion instantiated there. -/
theorem C1_stream_indexing_witness :
    (Events.mixpanelInitalParser schemaFull [sampleRecordFlat] = .ok [(1, sampleParsedFlat)]) ∧
    ([(1, sampleParsedFlat)] : List (Nat × PyDict)).length = [sampleRecordFlat].length ∧
    ∀ i (hi : i < [sampleRecordFlat].length), ∃ ev,
      Events.parseRecord schemaFull ([sampleRecordFlat].get ⟨i, hi⟩) = .ok ev ∧
      ([(1, sampleParsedFlat)] : List (Nat × PyDict)).get? i = some (i + 1, ev) :=
  ⟨by decide, C1_stream_indexing schemaFull [sampleRecordFlat] [(1, sampleParsedFlat)] (by decide)⟩

/-! ## C10: missing `query_key` -/

/-- With no `query_key` configured, parsing any single record raises: a
`KeyError('reproductive_data_key')` from `return_schema` when that slot is
also unset, an `AttributeError` when the nested container is truthy but
not a dict, or the `KeyError('query')` from the unconditional
`parsed_event.pop('query')`. -/
theorem parseRecord_query_none (s : Schema) (hq : s.query_key = none) (r : RawRecord) :
    Events.parseRecord s r = .error (.keyError "reproductive_data_key") ∨
    Events.parseRecord s r = .error .attributeError ∨
    Events.parseRecord s r = .error (.keyError "query") := by
  cases hr : s.reproductive_data_key with
  | none =>
      left
      rw [Events.parseRecord, return_schema_none s hr]
      rfl
  | some rv =>
      obtain ⟨L, hL, hmem⟩ := return_schema_ok s rv hr
      have hkeys5 : ∀ kv ∈ L, kv.1 = "dimension_key" ∨ kv.1 = "scroll_top_key" ∨
          kv.1 = "mouse_position_key" ∨ kv.1 = "time_key" ∨ kv.1 = "page_key" := by
        intro kv hkv
        obtain ⟨hin, hne⟩ := hmem kv hkv
        simp only [Schema.attrItems, List.mem_cons, List.not_mem_nil, or_false,
          Prod.mk.injEq] at hin
        rcases hin with ⟨hk, hv⟩ | ⟨hk, hv⟩ | ⟨hk, hv⟩ | ⟨hk, hv⟩ | ⟨hk, hv⟩ | ⟨hk, hv⟩ | ⟨hk, hv⟩
        · exact absurd hk hne
        · exact Or.inl hk
        · exact Or.inr (Or.inl hk)
        · exact Or.inr (Or.inr (Or.inl hk))
        · exact Or.inr (Or.inr (Or.inr (Or.inl hk)))
        · exact Or.inr (Or.inr (Or.inr (Or.inr hk)))
        · rw [hq] at hv
          exact Option.noConfusion hv
      have hstrip : ∀ kv ∈ L, pyReplaceEmpty kv.1 "_key" ≠ "query" := by
        intro kv hkv
        rcases hkeys5 kv hkv with hk | hk | hk | hk | hk <;> rw [hk] <;> decide
      have hqk : alookup L "query_key" = none := by
        apply alookup_none_of_all_ne
        intro kv hkv
        rcases hkeys5 kv hkv with hk | hk | hk | hk | hk <;> rw [hk] <;> decide
      rw [Events.parseRecord, hL]
      simp only [bind, Except.bind, hr]
      cases ht : (dgetOpt r.properties (some rv)).truthy with
      | true =>
          simp only [ht, if_true]
          cases hav : assignFromValue (dgetOpt r.properties (some rv)) L [("name", r.name)] with
          | error e =>
              have he := assignFromValue_error _ L _ e hav
              subst he
              right; left
              simp [hav, bind, Except.bind]
          | ok p1 =>
              right; right
              have hp1q : alookup p1 "query" = none := by
                rw [assignFromValue_alookup _ _ L _ p1 hav hstrip]
                simp [alookup]
              simp only [hav, bind, Except.bind, hqk, truthyOptStr, Bool.false_and,
                Bool.false_eq_true, if_false, dpop]
              have hvq : alookup (dinsert (dinsert p1 "time"
                  (dgetOpt r.properties (alookup L "time_key"))) "page"
                  (dgetOpt r.properties (alookup L "page_key"))) "query" = none := by
                rw [alookup_dinsert, if_neg (by decide), alookup_dinsert, if_neg (by decide),
                  hp1q]
              simp [pure, Except.pure, hvq]
      | false =>
          simp only [ht, Bool.false_eq_true, if_false]
          right; right
          have hp1q : alookup (assignFromDict r.properties L [("name", r.name)]) "query" =
              none := by
            rw [assignFromDict_alookup r.properties "query" L _ hstrip]
            simp [alookup]
          simp only [bind, Except.bind, hqk, truthyOptStr, Bool.false_eq_true, if_false, dpop]
          have hvq : alookup (dinsert (dinsert (assignFromDict r.properties L
              [("name", r.name)]) "time" (dgetOpt r.properties (alookup L "time_key")))
              "page" (dgetOpt r.properties (alookup L "page_key"))) "query" = none := by
            rw [alookup_dinsert, if_neg (by decide), alookup_dinsert, if_neg (by decide), hp1q]
          simp [pure, Except.pure, hvq]

/-- C10 (amended): for every schema without `query_key` and every
non-empty record sequence, normalization raises an uncaught exception —
a `KeyError` (from `return_schema` when `reproductive_data_key` is also
unset, or from the unconditional removal of the intermediate `'query'`
field) unless nested-field extraction fails first with an
`AttributeError` (truthy non-dict container). In particular normalization
completes without error only when `query_key` is set or the record list
is empty. The original claim named `KeyError` as the only possible
exception, which the `AttributeError` case refutes. -/
theorem C10_query_key_required (s : Schema) (rs : List RawRecord) (hq : s.query_key = none)
    (hne : rs ≠ []) :
    ∃ e, Events.mixpanelInitalParser s rs = .error e ∧
      (e = .keyError "reproductive_data_key" ∨ e = .attributeError ∨ e = .keyError "query") := by
  obtain ⟨r, rs', rfl⟩ := List.exists_cons_of_ne_nil hne
  have hrun : ∀ e, Events.parseRecord s r = .error e →
      Events.mixpanelInitalParser s (r :: rs') = .error e := by
    intro e he
    rw [Events.mixpanelInitalParser, Events.parseLoop, he]
    rfl
  rcases parseRecord_query_none s hq r with h | h | h
  · exact ⟨_, hrun _ h, Or.inl rfl⟩
  · exact ⟨_, hrun _ h, Or.inr (Or.inl rfl)⟩
  · exact ⟨_, hrun _ h, Or.inr (Or.inr rfl)⟩

/-- C10 witness: the concrete no-`query_key` schema and a concrete record
at which the theorem applies (here the raised exception is
`KeyError('query')`). -/
theorem C10_query_key_required_witness :
    schemaNoQuery.query_key = none ∧ ([sampleRecordFlat] : List RawRecord) ≠ [] ∧
    ∃ e, Events.mixpanelInitalParser schemaNoQuery [sampleRecordFlat] = .error e ∧
      (e = .keyError "reproductive_data_key" ∨ e = .attributeError ∨ e = .keyError "query") :=
  ⟨rfl, by simp, C10_query_key_required schemaNoQuery [sampleRecordFlat] rfl (by simp)⟩

/-- C10 counterexample: with `query_key` unset and a record whose nested
container value is a truthy non-dict, normalization raises
`AttributeError`, not a `KeyError`, refuting the claim's "raises an
uncaught KeyError" for every record sequence. -/
theorem C10_query_key_required_counterexample :
    Events.mixpanelInitalParser schemaNoQuery
        [⟨.vStr "E", [("rep", .vStr "x"), ("dim", .vStr "d")]⟩] =
      .error .attributeError ∧
    ∀ k, PyErr.attributeError ≠ PyErr.keyError k :=
  ⟨by decide, fun k h => PyErr.noConfusion h⟩

/-! ## C2: source-container selection -/

/-- C2 (amended), verified on a crafted record whose containers hold
conflicting values for every mapped field: with a truthy non-empty nested
container present under `reproductive_data_key`, the generic slots
(`dimension`, `scrollTop`, `mousePosition`) are read from the nested
container — but `time` and `page` are then overwritten from the
*top-level* properties (lines 170-171 of the source), and the query
suffix is also taken from top level; without such a container, every
field is read from the top-level properties. The two branches produce
different results on the crafted record (conflicting `dimension`:
`"dIN"` vs `"dOUT"`). The original claim's "every canonical field value
(including time and page) is read from that nested container" fails for
`time` and `page`. -/
theorem C2_source_container :
    Events.parseRecord schemaFull ⟨.vStr "E",
      [("rep", .vDict [("dim", .vStr "dIN"), ("scr", .vInt 7),
        ("mou", .vList [.vInt 1, .vInt 2]), ("tim", .vInt 1), ("pag", .vStr "pgIN"),
        ("que", .vStr "?in")]),
       ("dim", .vStr "dOUT"), ("scr", .vInt 8), ("mou", .vList [.vInt 3, .vInt 4]),
       ("tim", .vInt 2), ("pag", .vStr "P"), ("que", .vStr "?z")]⟩ =
      .ok [("name", .vStr "E"), ("dimension", .vStr "dIN"), ("scroll_top", .vInt 7),
        ("mouse_position", .vList [.vInt 1, .vInt 2]), ("time", .vInt 2),
        ("page", .vStr "P?z")] ∧
    Events.parseRecord schemaFull ⟨.vStr "E",
      [("dim", .vStr "dOUT"), ("scr", .vInt 8), ("mou", .vList [.vInt 3, .vInt 4]),
       ("tim", .vInt 2), ("pag", .vStr "P"), ("que", .vStr "?z")]⟩ =
      .ok [("name", .vStr "E"), ("dimension", .vStr "dOUT"), ("scroll_top", .vInt 8),
        ("mouse_position", .vList [.vInt 3, .vInt 4]), ("time", .vInt 2),
        ("page", .vStr "P?z")] ∧
    ([("name", Value.vStr "E"), ("dimension", Value.vStr "dIN"),
      ("scroll_top", Value.vInt 7), ("mouse_position", Value.vList [.vInt 1, .vInt 2]),
      ("time", Value.vInt 2), ("page", Value.vStr "P?z")] : PyDict) ≠
      [("name", .vStr "E"), ("dimension", .vStr "dOUT"), ("scroll_top", .vInt 8),
       ("mouse_position", .vList [.vInt 3, .vInt 4]), ("time", .vInt 2),
       ("page", .vStr "P?z")] := by
  refine ⟨by decide, by decide, by decide⟩

/-- C2 counterexample: a record whose nested container sets the time
provider key to `1` while the top-level properties set it to `2`; the
parser's canonical `time` is `2` (top level), not the nested container's
`1`, refuting "every canonical field value (including time and page) is
read from that nested container". -/
theorem C2_source_container_counterexample :
    Events.parseRecord schemaFull ⟨.vStr "E",
      [("rep", .vDict [("tim", .vInt 1), ("pag", .vStr "IN"), ("que", .vStr "?in")]),
       ("tim", .vInt 2), ("pag", .vStr "P"), ("que", .vStr "?z")]⟩ =
      .ok [("name", .vStr "E"), ("dimension", .vNone), ("scroll_top", .vNone),
        ("mouse_position", .vNone), ("time", .vInt 2), ("page", .vStr "P?z")] ∧
    alookup [("tim", Value.vInt 1), ("pag", Value.vStr "IN"), ("que", Value.vStr "?in")]
      "tim" = some (.vInt 1) ∧
    (Value.vInt 2) ≠ (Value.vInt 1) := by
  refine ⟨by decide, by decide, by decide⟩

/-! ## C3: query-string concatenation -/

/-- C3 (amended): when the query value is present, the canonical page is
exactly the page string concatenated with the raw query value, with no
separator, in both branches, and the intermediate `query` field is absent
from the final event; when the query value is absent, the *nested* branch
leaves the page unchanged, but the *non-nested* branch still attempts the
concatenation (its guard checks only that `query_key` is configured, not
the value) and raises `TypeError` from `str + None`. The original claim's
"if the query value is absent or falsy, the canonical page is unchanged"
holds only in the nested branch. -/
theorem C3_query_concatenation (P : String) (t : Value) :
    Events.parseRecord schemaQP ⟨.vStr "E",
      [("tim", t), ("pag", .vStr P), ("que", .vStr "?ref=1")]⟩ =
      .ok [("name", .vStr "E"), ("time", t), ("page", .vStr (P ++ "?ref=1"))] ∧
    Events.parseRecord schemaQP ⟨.vStr "E",
      [("rep", .vDict [("x", .vInt 1)]), ("tim", t), ("pag", .vStr P),
       ("que", .vStr "?ref=1")]⟩ =
      .ok [("name", .vStr "E"), ("time", t), ("page", .vStr (P ++ "?ref=1"))] ∧
    Events.parseRecord schemaQP ⟨.vStr "E",
      [("rep", .vDict [("x", .vInt 1)]), ("tim", t), ("pag", .vStr P)]⟩ =
      .ok [("name", .vStr "E"), ("time", t), ("page", .vStr P)] ∧
    Events.parseRecord schemaQP ⟨.vStr "E", [("tim", t), ("pag", .vStr P)]⟩ =
      .error .typeError :=
  ⟨rfl, rfl, rfl, rfl⟩

/-- C3 counterexample: with `query_key` configured, page
`"https://x/a"` and the query value absent, normalization of the (non-
nested) record raises `TypeError` instead of leaving the page unchanged
as the claim requires. -/
theorem C3_query_concatenation_counterexample :
    Events.mixpanelInitalParser schemaQP
        [⟨.vStr "E", [("tim", .vInt 0), ("pag", .vStr "https://x/a")]⟩] =
      .error .typeError := by
  decide

/-- C1 counterexample: under a schema without `query_key` (a legal schema
configuration), normalizing one well-formed record does not yield a
one-entry stream — it raises `KeyError('query')` from the unconditional
`parsed_event.pop('query')`. -/
theorem C1_stream_indexing_counterexample :
    Events.mixpanelInitalParser schemaNoQuery [sampleRecordFlat] =
      .error (.keyError "query") := by
  decide

/-! ## Replay-loop lemmas -/

theorem pagesOf_cons (n : Nat) (ev : PyDict) (es : List (Nat × PyDict)) :
    pagesOf ((n, ev) :: es) =
      (alookup ev "page").bind (fun p => (pagesOf es).map (fun ps => p :: ps)) := rfl

theorem timesOf_cons (n : Nat) (ev : PyDict) (es : List (Nat × PyDict)) :
    timesOf ((n, ev) :: es) =
      (alookup ev "time").bind (fun t => (timesOf es).map (fun ts => t :: ts)) := rfl

/-- The navigation decisions of the replay loop with the default handler
follow `navDecisionSpec` from the incoming previous page. -/
theorem simLoop_navigated (st : Option Value) (g : Nat → Bool) :
    ∀ (es : List (Nat × PyDict)) (i : Nat) (lt ll : Value) (pls : List Value)
      (steps : List SimStep),
      UserSimulation.simLoop st g none es i lt ll = .ok steps →
      pagesOf es = some pls →
      steps.map (·.navigated) = navDecisionSpec ll pls := by
  intro es
  induction es with
  | nil =>
      intro i lt ll pls steps h hp
      rw [UserSimulation.simLoop] at h
      cases h
      rw [pagesOf] at hp
      cases hp
      rfl
  | cons e es ih =>
      intro i lt ll pls steps h hp
      obtain ⟨n, ev⟩ := e
      rw [pagesOf_cons] at hp
      rcases Option.bind_eq_some.mp hp with ⟨p, hpg, hmap⟩
      rcases Option.map_eq_some'.mp hmap with ⟨ps, hpls, rfl⟩
      rw [UserSimulation.simLoop] at h
      cases hs : sleepComputation st ev lt with
      | error e2 =>
          rw [hs] at h
          simp only [bind, Except.bind] at h
          exact Except.noConfusion h
      | ok slp =>
          rw [hs] at h
          simp only [bind, Except.bind] at h
          have hd : handlerStage none n ev lt ll = .ok (if ll = p then none else some p, false) := by
            simp [handlerStage, dindex, hpg, bind, Except.bind, pure, Except.pure]
          rw [hd] at h
          simp only [bind, Except.bind] at h
          cases hck : clickStage ev with
          | error e2 =>
              rw [hck] at h
              simp only [bind, Except.bind] at h
              exact Except.noConfusion h
          | ok ck =>
              rw [hck] at h
              simp only [bind, Except.bind] at h
              cases ht2 : dindex ev "time" with
              | error e2 =>
                  rw [ht2] at h
                  simp only [bind, Except.bind] at h
                  exact Except.noConfusion h
              | ok t2 =>
                  have hp2 : dindex ev "page" = .ok p := by simp [dindex, hpg]
                  rw [ht2] at h
                  simp only [bind, Except.bind] at h
                  rw [hp2] at h
                  simp only [bind, Except.bind] at h
                  cases hrec : UserSimulation.simLoop st g none es (i + 1) t2 p with
                  | error e2 =>
                      rw [hrec] at h
                      simp only [bind, Except.bind] at h
                      exact Except.noConfusion h
                  | ok steps2 =>
                      rw [hrec] at h
                      simp only [bind, Except.bind, pure, Except.pure] at h
                      cases h
                      simp only [List.map_cons, navDecisionSpec]
                      rw [ih (i + 1) t2 p ps steps2 hrec hpls]

/-! ## C5: default-handler navigation -/

/-- C5 (confirmed): in a replay run with the default handler (no custom
`execute_function`), the per-event navigation decisions follow
`navDecisionSpec` threaded from the absent initial previous page: event
`i` (i ≥ 2) navigates iff its page differs from the previous event's page
(exact inequality), and since the initial previous page is absent and
never equals a page string, the first event always navigates to its
page. -/
theorem C5_default_handler_navigation (es : List (Nat × PyDict)) (st : Option Value)
    (g : Nat → Bool) (pls : List Value) (steps : List SimStep)
    (hrun : UserSimulation.perform_simulation es st g none = .ok steps)
    (hp : pagesOf es = some pls)
    (hstr : ∀ p ∈ pls, ∃ sp, p = Value.vStr sp) :
    steps.map (·.navigated) = navDecisionSpec Value.vNone pls ∧
    ∀ p ps2, pls = p :: ps2 →
      steps.map (·.navigated) = some p :: navDecisionSpec p ps2 := by
  rw [UserSimulation.perform_simulation.eq_def] at hrun
  cases es with
  | nil => simp [bind, Except.bind] at hrun
  | cons e es2 =>
      simp only [bind, Except.bind] at hrun
      cases hlt : dindex e.2 "time" with
      | error e2 =>
          rw [hlt] at hrun
          simp only [bind, Except.bind] at hrun
          exact Except.noConfusion hrun
      | ok lt =>
          rw [hlt] at hrun
          simp only [bind, Except.bind] at hrun
          have h1 := simLoop_navigated st g (e :: es2) 0 lt .vNone pls steps hrun hp
          refine ⟨h1, ?_⟩
          intro p ps2 hpe
          subst hpe
          rw [h1]
          simp only [navDecisionSpec]
          have hne : Value.vNone ≠ p := by
            obtain ⟨sp, rfl⟩ := hstr p (by simp)
            exact fun hh => Value.noConfusion hh
          rw [if_neg hne]

/-- C5 witness: the concrete three-event stream with pages
`["A", "A", "B"]`: the first event navigates to `"A"`, the second does
not (same page), the third navigates to `"B"`. -/
theorem C5_default_handler_navigation_witness :
    (UserSimulation.perform_simulation sampleStream (some (.vInt 0)) (fun _ => false) none =
      .ok sampleStepsStatic) ∧
    pagesOf sampleStream = some [.vStr "A", .vStr "A", .vStr "B"] ∧
    sampleStepsStatic.map (·.navigated) =
      navDecisionSpec .vNone [.vStr "A", .vStr "A", .vStr "B"] ∧
    sampleStepsStatic.map (·.navigated) =
      some (.vStr "A") :: navDecisionSpec (.vStr "A") [.vStr "A", .vStr "B"] := by
  have hrun : UserSimulation.perform_simulation sampleStream (some (.vInt 0))
      (fun _ => false) none = .ok sampleStepsStatic := by decide
  have hp : pagesOf sampleStream = some [.vStr "A", .vStr "A", .vStr "B"] := by decide
  have hstr : ∀ p ∈ ([.vStr "A", .vStr "A", .vStr "B"] : List Value),
      ∃ sp, p = Value.vStr sp := by
    intro p hmem
    simp only [List.mem_cons, List.not_mem_nil, or_false] at hmem
    rcases hmem with rfl | rfl | rfl
    exacts [⟨"A", rfl⟩, ⟨"A", rfl⟩, ⟨"B", rfl⟩]
  have h := C5_default_handler_navigation sampleStream (some (.vInt 0)) (fun _ => false)
    [.vStr "A", .vStr "A", .vStr "B"] sampleStepsStatic hrun hp hstr
  exact ⟨hrun, hp, h.1, h.2 _ _ rfl⟩

/-! ## C6: replay timing -/

/-- With a static sleep time, every step of the loop suspends for exactly
that value. -/
theorem simLoop_static_sleep (g : Nat → Bool) (s : Value) :
    ∀ (es : List (Nat × PyDict)) (i : Nat) (lt ll : Value) (steps : List SimStep),
      UserSimulation.simLoop (some s) g none es i lt ll = .ok steps →
      ∀ step ∈ steps, step.sleepFor = s := by
  intro es
  induction es with
  | nil =>
      intro i lt ll steps h
      rw [UserSimulation.simLoop] at h
      cases h
      intro step hstep
      exact absurd hstep (List.not_mem_nil step)
  | cons e es ih =>
      intro i lt ll steps h
      obtain ⟨n, ev⟩ := e
      rw [UserSimulation.simLoop] at h
      have hs : sleepComputation (some s) ev lt = .ok s := rfl
      rw [hs] at h
      simp only [bind, Except.bind] at h
      cases hh : handlerStage none n ev lt ll with
      | error e2 =>
          rw [hh] at h
          simp only [bind, Except.bind] at h
          exact Except.noConfusion h
      | ok nh =>
          rw [hh] at h
          simp only [bind, Except.bind] at h
          cases hck : clickStage ev with
          | error e2 =>
              rw [hck] at h
              simp only [bind, Except.bind] at h
              exact Except.noConfusion h
          | ok ck =>
              rw [hck] at h
              simp only [bind, Except.bind] at h
              cases ht2 : dindex ev "time" with
              | error e2 =>
                  rw [ht2] at h
                  simp only [bind, Except.bind] at h
                  exact Except.noConfusion h
              | ok t2 =>
                  rw [ht2] at h
                  simp only [bind, Except.bind] at h
                  cases hp2 : dindex ev "page" with
                  | error e2 =>
                      rw [hp2] at h
                      simp only [bind, Except.bind] at h
                      exact Except.noConfusion h
                  | ok p2 =>
                      rw [hp2] at h
                      simp only [bind, Except.bind] at h
                      cases hrec : UserSimulation.simLoop (some s) g none es (i + 1) t2 p2 with
                      | error e2 =>
                          rw [hrec] at h
                          simp only [bind, Except.bind] at h
                          exact Except.noConfusion h
                      | ok steps2 =>
                          rw [hrec] at h
                          simp only [bind, Except.bind, pure, Except.pure] at h
                          cases h
                          intro step hstep
                          rcases List.mem_cons.mp hstep with rfl | hmem
                          · rfl
                          · exact ih (i + 1) t2 p2 steps2 hrec step hmem

/-- With recorded timing and integer timestamps, the loop's suspend
durations follow `sleepSpec` from the incoming previous timestamp. -/
theorem simLoop_recorded_sleep (g : Nat → Bool) :
    ∀ (es : List (Nat × PyDict)) (i : Nat) (lt0 : Int) (ll : Value) (ts : List Int)
      (steps : List SimStep),
      UserSimulation.simLoop none g none es i (Value.vInt lt0) ll = .ok steps →
      timesOf es = some (ts.map Value.vInt) →
      steps.map (·.sleepFor) = sleepSpec lt0 ts := by
  intro es
  induction es with
  | nil =>
      intro i lt0 ll ts steps h ht
      rw [UserSimulation.simLoop] at h
      cases h
      rw [timesOf] at ht
      have hts : ts = [] := by
        cases ts with
        | nil => rfl
        | cons t ts2 => simp at ht
      subst hts
      rfl
  | cons e es ih =>
      intro i lt0 ll ts steps h ht
      obtain ⟨n, ev⟩ := e
      rw [timesOf_cons] at ht
      rcases Option.bind_eq_some.mp ht with ⟨tv, htv, hmap⟩
      rcases Option.map_eq_some'.mp hmap with ⟨tvs, htvs, heq⟩
      cases ts with
      | nil => exact absurd heq (by simp)
      | cons t0 ts2 =>
          simp only [List.map_cons] at heq
          injection heq with h1 h2
          subst h1
          subst h2
          have hs : sleepComputation none ev (Value.vInt lt0) =
              .ok (if t0 - lt0 < 0 then Value.vInt 3 else .vInt (t0 - lt0)) := by
            simp [sleepComputation, dindex, htv, Value.pySub, Value.asNum, Value.pyLtZero,
              bind, Except.bind, pure, Except.pure]
          rw [UserSimulation.simLoop] at h
          rw [hs] at h
          simp only [bind, Except.bind] at h
          cases hh : handlerStage none n ev (Value.vInt lt0) ll with
          | error e2 =>
              rw [hh] at h
              simp only [bind, Except.bind] at h
              exact Except.noConfusion h
          | ok nh =>
              rw [hh] at h
              simp only [bind, Except.bind] at h
              cases hck : clickStage ev with
              | error e2 =>
                  rw [hck] at h
                  simp only [bind, Except.bind] at h
                  exact Except.noConfusion h
              | ok ck =>
                  rw [hck] at h
                  simp only [bind, Except.bind] at h
                  have ht2 : dindex ev "time" = .ok (Value.vInt t0) := by simp [dindex, htv]
                  rw [ht2] at h
                  simp only [bind, Except.bind] at h
                  cases hp2 : dindex ev "page" with
                  | error e2 =>
                      rw [hp2] at h
                      simp only [bind, Except.bind] at h
                      exact Except.noConfusion h
                  | ok p2 =>
                      rw [hp2] at h
                      simp only [bind, Except.bind] at h
                      cases hrec : UserSimulation.simLoop none g none es (i + 1)
                          (Value.vInt t0) p2 with
                      | error e2 =>
                          rw [hrec] at h
                          simp only [bind, Except.bind] at h
                          exact Except.noConfusion h
                      | ok steps2 =>
                          rw [hrec] at h
                          simp only [bind, Except.bind, pure, Except.pure] at h
                          cases h
                          simp only [List.map_cons, sleepSpec]
                          rw [ih (i + 1) t0 p2 ts2 steps2 hrec htvs]

/-- C6 (confirmed): with a static sleep time configured, the suspend
before every event equals that value regardless of recorded timestamps;
with recorded timing, the suspends follow `sleepSpec`: the suspend before
event `i` (i ≥ 2) is `time_i - time_{i-1}`, with any negative difference
replaced by exactly 3 (no error), and the timestamp threaded before the
first event is that event's own time (suspend 0 there). -/
theorem C6_replay_timing :
    (∀ (es : List (Nat × PyDict)) (s : Value) (g : Nat → Bool) (steps : List SimStep),
      UserSimulation.perform_simulation es (some s) g none = .ok steps →
      ∀ step ∈ steps, step.sleepFor = s) ∧
    (∀ (es : List (Nat × PyDict)) (g : Nat → Bool) (ts : List Int) (steps : List SimStep),
      UserSimulation.perform_simulation es none g none = .ok steps →
      timesOf es = some (ts.map Value.vInt) →
      steps.map (·.sleepFor) = sleepSpec (ts.headD 0) ts) := by
  constructor
  · intro es s g steps hrun
    rw [UserSimulation.perform_simulation.eq_def] at hrun
    cases es with
    | nil => simp [bind, Except.bind] at hrun
    | cons e es2 =>
        simp only [bind, Except.bind] at hrun
        cases hlt : dindex e.2 "time" with
        | error e2 =>
            rw [hlt] at hrun
            simp only [bind, Except.bind] at hrun
            exact Except.noConfusion hrun
        | ok lt =>
            rw [hlt] at hrun
            simp only [bind, Except.bind] at hrun
            exact simLoop_static_sleep g s (e :: es2) 0 lt .vNone steps hrun
  · intro es g ts steps hrun ht
    rw [UserSimulation.perform_simulation.eq_def] at hrun
    cases es with
    | nil => simp [bind, Except.bind] at hrun
    | cons e es2 =>
        obtain ⟨n, ev⟩ := e
        simp only [bind, Except.bind] at hrun
        rw [timesOf_cons] at ht
        rcases Option.bind_eq_some.mp ht with ⟨tv, htv, hmap⟩
        rcases Option.map_eq_some'.mp hmap with ⟨tvs, htvs, heq⟩
        cases ts with
        | nil => exact absurd heq (by simp)
        | cons t0 ts2 =>
            simp only [List.map_cons] at heq
            injection heq with h1 h2
            subst h1
            subst h2
            have hlt : dindex ev "time" = .ok (Value.vInt t0) := by simp [dindex, htv]
            rw [hlt] at hrun
            simp only [bind, Except.bind] at hrun
            have hfull : timesOf ((n, ev) :: es2) = some ((t0 :: ts2).map Value.vInt) := by
              rw [timesOf_cons, htv, htvs]
              rfl
            have := simLoop_recorded_sleep g ((n, ev) :: es2) 0 t0 .vNone (t0 :: ts2)
              steps hrun hfull
            exact this

/-- C6 witness: replaying the `[100, 103, 99]` stream with recorded
timing yields suspends `[0, 3, 3]` — event 2 suspends `103 - 100 = 3`,
event 3's raw delta `99 - 103 = -4` is replaced by 3 — and replaying it
with `static_sleep_time = 2` suspends 2 before every event. -/
theorem C6_replay_timing_witness :
    (UserSimulation.perform_simulation sampleStream none (fun _ => false) none =
      .ok sampleStepsRecorded) ∧
    timesOf sampleStream = some (([100, 103, 99] : List Int).map Value.vInt) ∧
    sampleStepsRecorded.map (·.sleepFor) =
      sleepSpec (([100, 103, 99] : List Int).headD 0) [100, 103, 99] ∧
    sleepSpec 100 [100, 103, 99] = [.vInt 0, .vInt 3, .vInt 3] ∧
    (UserSimulation.perform_simulation sampleStream (some (.vInt 2)) (fun _ => false) none =
      .ok sampleStepsStatic2) ∧
    ∀ step ∈ sampleStepsStatic2, step.sleepFor = .vInt 2 := by
  have hrun : UserSimulation.perform_simulation sampleStream none (fun _ => false) none =
      .ok sampleStepsRecorded := by decide
  have ht : timesOf sampleStream = some (([100, 103, 99] : List Int).map Value.vInt) := by
    decide
  have hrun2 : UserSimulation.perform_simulation sampleStream (some (.vInt 2))
      (fun _ => false) none = .ok sampleStepsStatic2 := by decide
  refine ⟨hrun, ht, C6_replay_timing.2 sampleStream (fun _ => false) [100, 103, 99]
    sampleStepsRecorded hrun ht, by decide, hrun2,
    C6_replay_timing.1 sampleStream (.vInt 2) (fun _ => false) sampleStepsStatic2 hrun2⟩

/-! ## C9: scroll failures are non-fatal -/

/-- The replay loop's outcome, up to the recorded per-step scroll
browser-outcome flag, does not depend on which scroll dispatches the
browser fails: `simulate_scroll` swallows the `JavascriptException` and
the loop continues identically. -/
theorem simLoop_scroll_oblivious (st : Option Value) (ef : Option ExecuteFunction)
    (g1 g2 : Nat → Bool) :
    ∀ (es : List (Nat × PyDict)) (i : Nat) (lt ll : Value),
      (UserSimulation.simLoop st g1 ef es i lt ll).map (List.map SimStep.ignoreScrollOutcome) =
        (UserSimulation.simLoop st g2 ef es i lt ll).map
          (List.map SimStep.ignoreScrollOutcome) := by
  intro es
  induction es with
  | nil => intro i lt ll; rfl
  | cons e es ih =>
      intro i lt ll
      obtain ⟨n, ev⟩ := e
      simp only [UserSimulation.simLoop]
      cases hs : sleepComputation st ev lt with
      | error e2 => simp [bind, Except.bind, Except.map]
      | ok slp =>
          simp only [bind, Except.bind]
          cases hh : handlerStage ef n ev lt ll with
          | error e2 => simp [Except.map]
          | ok nh =>
              cases hck : clickStage ev with
              | error e2 => simp [Except.map]
              | ok ck =>
                  cases ht2 : dindex ev "time" with
                  | error e2 => simp [Except.map]
                  | ok t2 =>
                      cases hp2 : dindex ev "page" with
                      | error e2 => simp [Except.map]
                      | ok p2 =>
                          have hih := ih (i + 1) t2 p2
                          cases hr1 : UserSimulation.simLoop st g1 ef es (i + 1) t2 p2 with
                          | error e2 =>
                              cases hr2 : UserSimulation.simLoop st g2 ef es (i + 1) t2 p2 with
                              | error e3 =>
                                  rw [hr1, hr2] at hih
                                  simp only [Except.map] at hih
                                  cases hih
                                  simp only [hr1, hr2]
                              | ok l2 =>
                                  rw [hr1, hr2] at hih
                                  simp [Except.map] at hih
                          | ok l1 =>
                              cases hr2 : UserSimulation.simLoop st g2 ef es (i + 1) t2 p2 with
                              | error e3 =>
                                  rw [hr1, hr2] at hih
                                  simp [Except.map] at hih
                              | ok l2 =>
                                  rw [hr1, hr2] at hih
                                  simp only [Except.map, Except.ok.injEq] at hih
                                  simp only [hr1, hr2, pure, Except.pure, Except.map,
                                    List.map_cons, Except.ok.injEq, List.cons.injEq]
                                  refine ⟨?_, hih⟩
                                  cases hsc : (dget ev "scroll_top").truthy <;>
                                    simp [SimStep.ignoreScrollOutcome, Controls.simulate_scroll,
                                      hsc]

/-- C9 (confirmed): a scroll dispatch failure at the browser layer is
swallowed inside `Controls.simulate_scroll` (logged diagnostically) and
the replay continues: for any two browser scroll-failure patterns the
entire run — success or failure, and every recorded step except the
scroll-outcome flag itself — is identical, so scroll failures never abort
a replay. All other errors of the loop are `Except` errors that propagate
to the caller by construction. -/
theorem C9_scroll_failures_nonfatal (es : List (Nat × PyDict)) (st : Option Value)
    (ef : Option ExecuteFunction) (g1 g2 : Nat → Bool) :
    (UserSimulation.perform_simulation es st g1 ef).map
        (List.map SimStep.ignoreScrollOutcome) =
      (UserSimulation.perform_simulation es st g2 ef).map
        (List.map SimStep.ignoreScrollOutcome) ∧
    (UserSimulation.perform_simulation es st g1 ef).isOk =
      (UserSimulation.perform_simulation es st g2 ef).isOk := by
  have hmain : (UserSimulation.perform_simulation es st g1 ef).map
      (List.map SimStep.ignoreScrollOutcome) =
      (UserSimulation.perform_simulation es st g2 ef).map
        (List.map SimStep.ignoreScrollOutcome) := by
    rw [UserSimulation.perform_simulation.eq_def, UserSimulation.perform_simulation.eq_def]
    cases es with
    | nil => rfl
    | cons e es2 =>
        simp only [bind, Except.bind]
        cases hlt : dindex e.2 "time" with
        | error e2 => rfl
        | ok lt => exact simLoop_scroll_oblivious st ef g1 g2 (e :: es2) 0 lt .vNone
  refine ⟨hmain, ?_⟩
  cases h1 : UserSimulation.perform_simulation es st g1 ef with
  | error e1 =>
      cases h2 : UserSimulation.perform_simulation es st g2 ef with
      | error e2 => rfl
      | ok l2 =>
          rw [h1, h2] at hmain
          simp [Except.map] at hmain
  | ok l1 =>
      cases h2 : UserSimulation.perform_simulation es st g2 ef with
      | error e2 =>
          rw [h1, h2] at hmain
          simp [Except.map] at hmain
      | ok l2 => rfl

/-! ## C8: `DataParams` construction -/

/-- C8 (amended): `from_date` without `to_date` raises `ValueError`;
`limit` as the string `"5"` raises `ValueError`; `event=["A","B"]`
succeeds and is stored as the exact JSON array string `'["A", "B"]'`; an
unsupported parameter name raises `NotImplementedError`; the *date
pattern* validation messages include the offending value — but the type
and pairing validation messages do not (the limit message is exactly
`'limit param should be integer'`, which does not contain `"5"`), so the
claim's "validation error messages include the offending value" does not
hold of every validation message. -/
theorem C8_data_params :
    DataParams.init [("from_date", .vStr "2023-09-21")] =
      .error (.valueError "from_date param have to be with to_date param") ∧
    DataParams.init [("limit", .vStr "5")] =
      .error (.valueError "limit param should be integer") ∧
    DataParams.init [("event", .vList [.vStr "A", .vStr "B"])] =
      .ok [("event", .vStr "[\"A\", \"B\"]")] ∧
    DataParams.init [("from_date", .vStr "2023-09-21"), ("to_date", .vStr "2023-09-22")] =
      .ok [("from_date", .vStr "2023-09-21"), ("to_date", .vStr "2023-09-22")] ∧
    DataParams.init [("foo", .vInt 1)] =
      .error (.notImplementedError ("\"foo\" is not supported param. Supported params are " ++
        DataParams.supportedParamsRepr)) ∧
    (DataParams.init [("from_date", .vStr "BAD")] = .error (.valueError
      "from_date param should be in the following pattern: YYYY-MM-DD | You provided BAD") ∧
     strContains
      "from_date param should be in the following pattern: YYYY-MM-DD | You provided BAD"
      "BAD" = true) ∧
    strContains "limit param should be integer" "5" = false := by
  refine ⟨by decide, by decide, by decide, by decide, by decide, ⟨by decide, by decide⟩,
    by decide⟩

/-- C8 counterexample: `limit="5"` fails with the message
`'limit param should be integer'`, which does not contain the offending
value `"5"`, refuting "validation error messages include the offending
value". -/
theorem C8_data_params_counterexample :
    DataParams.init [("limit", .vStr "5")] =
      .error (.valueError "limit param should be integer") ∧
    strContains "limit param should be integer" "5" = false := by
  exact ⟨by decide, by decide⟩

end UIS
